import Mathlib

/-!
Verification of the `dynu` dynamic-DNS client (package `dynu` of
justenwalker/ddns): a shallow embedding of `error.go` (response codec and
error model) and `dnyu.go` (update client and request construction),
with theorems checking the specification's claims against it.

Go strings are embedded as Lean `String` (operating on their `List Char`
data where convenient); Go slices as `List`; Go's `nil` error as `Option`
success; a Go runtime panic (index out of range) as an outer `Option.none`.
-/

namespace Dynu

/-- Go type `ResponseCode string` (error.go): a named string type. -/
abbrev ResponseCode := String

/-- `RespUnknown`: invalid request / badly formatted parameters. -/
def RespUnknown : ResponseCode := "unknown"

/-- `RespGood`: the action has been processed successfully. -/
def RespGood : ResponseCode := "good"

/-- `RespBadAuth`: failed authentication for the request. -/
def RespBadAuth : ResponseCode := "badauth"

/-- `RespServerError`: an error was encountered on the server side; the
client may send the request again. -/
def RespServerError : ResponseCode := "servererror"

/-- `RespNoChange`: IP address was found to be unchanged on the server side. -/
def RespNoChange : ResponseCode := "nochg"

/-- `RespNotFQDN`: the hostname is not a valid fully qualified hostname. -/
def RespNotFQDN : ResponseCode := "notfqdn"

/-- `RespNumHost`: too many hostnames (more than 20) specified. -/
def RespNumHost : ResponseCode := "numhost"

/-- `RespAbuse`: update failed due to abusive behaviour. -/
def RespAbuse : ResponseCode := "abuse"

/-- `RespNohost`: hostname/username not found in the system. -/
def RespNohost : ResponseCode := "nohost"

/-- `Resp911`: update temporarily halted due to scheduled maintenance. -/
def Resp911 : ResponseCode := "911"

/-- `RespDNS`: server-side error; the client must retry the update. -/
def RespDNS : ResponseCode := "dnserr"

/-- `RespNotDonator`: functionality only available to members. -/
def RespNotDonator : ResponseCode := "!donator"

/-- Go struct `Error` (error.go): a response-code error together with the
index of the request it belongs to in a multi-request response. -/
structure Error where
  Request : Nat
  Code : ResponseCode
  Detail : String
deriving Repr, DecidableEq

/-- Go type `ResponseErrors []Error`. -/
abbrev ResponseErrors := List Error

/-- Go struct `Response` (error.go): the response code for each request. -/
structure Response where
  Codes : List ResponseCode
  Detail : List String
deriving Repr, DecidableEq

/-- `ResponseCode.IsError` (error.go): true unless the code is
`RespGood` or `RespNoChange`. -/
def ResponseCode.IsError (rc : ResponseCode) : Bool :=
  !(rc == RespGood || rc == RespNoChange)

/-- `Error.Temporary` (error.go): true if the error is temporary and may
succeed after a retry — switch on `RespDNS`, `Resp911`, `RespServerError`. -/
def Error.Temporary (e : Error) : Bool :=
  e.Code == RespDNS || e.Code == Resp911 || e.Code == RespServerError

/-- The loop body of `Response.ToError` (error.go): walk the codes with
their running index `i`; each erroring code appends an `Error` built from
the index, the code, and `rs.Detail[i]`.  The Go expression `rs.Detail[i]`
panics when `i` is out of range; that panic is modelled by `none`. -/
def toErrorAux (detail : List String) : List ResponseCode → Nat → Option (List Error)
  | [], _ => some []
  | r :: rest, i =>
    if r.IsError then
      match detail[i]? with
      | none => none
      | some d =>
        match toErrorAux detail rest (i + 1) with
        | none => none
        | some es => some ({ Request := i, Code := r, Detail := d } :: es)
    else toErrorAux detail rest (i + 1)

/-- `Response.ToError` (error.go): the response errors, or Go `nil`
(embedded as the inner `none`) if there were no errors.  The outer `none`
models the index-out-of-range panic of `rs.Detail[i]`. -/
def Response.ToError (rs : Response) : Option (Option ResponseErrors) :=
  match toErrorAux rs.Detail rs.Codes 0 with
  | none => none
  | some [] => some none
  | some es => some (some es)

/-- The set of whitespace characters of Go's `unicode.IsSpace`, used by
`strings.TrimSpace`: ASCII whitespace, NEL, and the Unicode `Zs` spaces. -/
def isSpaceGo (c : Char) : Bool :=
  c == ' ' || c == '\t' || c == '\n' || (c.toNat == 11) || (c.toNat == 12) ||
  c == '\r' || (c.toNat == 0x85) || (c.toNat == 0xA0) || (c.toNat == 0x1680) ||
  (0x2000 ≤ c.toNat && c.toNat ≤ 0x200A) || (c.toNat == 0x2028) ||
  (c.toNat == 0x2029) || (c.toNat == 0x202F) || (c.toNat == 0x205F) ||
  (c.toNat == 0x3000)

/-- Go `strings.TrimSpace`: drop leading and trailing whitespace. -/
def trimSpaceGo (s : List Char) : List Char :=
  ((s.dropWhile isSpaceGo).reverse.dropWhile isSpaceGo).reverse

/-- Go `strings.ToLower` restricted to the ASCII letters (the only case
mapping the response codes exercise): map each `A`–`Z` to `a`–`z`. -/
def toLowerGo (s : List Char) : List Char :=
  s.map fun c => if 'A' ≤ c && c ≤ 'Z' then Char.ofNat (c.toNat + 32) else c

/-- Go `strings.Split(s, "\n\r")` (error.go line 84), specialised to the
two-character separator: split on each occurrence of line-feed followed by
carriage-return, scanning left to right. `Split` of the empty string is
one empty field. -/
def splitNR : List Char → List (List Char)
  | [] => [[]]
  | '\n' :: '\r' :: rest => [] :: splitNR rest
  | c :: rest =>
    match splitNR rest with
    | [] => [[c]]
    | r :: rs => (c :: r) :: rs

/-- Go `strings.SplitN(code, " ", 2)` (error.go line 86): the field before
the first space character, and — when a space occurs — the remainder after
that single space. -/
def splitN2Space : List Char → List Char × Option (List Char)
  | [] => ([], none)
  | ' ' :: rest => ([], some rest)
  | c :: rest =>
    let p := splitN2Space rest
    (c :: p.1, p.2)

/-- The record-parsing body of `ReadResponse` (error.go lines 86-93):
`rc := TrimSpace(ToLower(sp[0]))`, `detail := sp[1]` when present else `""`. -/
def parseRecord (code : List Char) : ResponseCode × String :=
  let sp := splitN2Space code
  (String.mk (trimSpaceGo (toLowerGo sp.1)), String.mk (sp.2.getD []))

/-- `ReadResponse` (error.go): split the body on `"\n\r"`, parse each
record, and collect the codes and details in order.  (The only failure of
the Go function is a transport read error, which is external to this
embedding; the parse itself is total.) -/
def ReadResponse (body : String) : Response :=
  let recs := (splitNR body.data).map parseRecord
  { Codes := recs.map Prod.fst, Detail := recs.map Prod.snd }

/-! ## SHA-256 (Go `crypto/sha256.Sum256`) and hex (Go `encoding/hex.EncodeToString`)

FIPS 180-4 SHA-256 over byte lists, with 32-bit words as `Nat` reduced
modulo `2 ^ 32`. -/

/-- `2 ^ 32`, the modulus of the 32-bit word arithmetic. -/
def M32 : Nat := 4294967296

/-- Rotate the 32-bit word `x` right by `n` bit positions. -/
def rotr32 (x n : Nat) : Nat := ((x >>> n) ||| (x <<< (32 - n))) % M32

/-- SHA-256 Σ0. -/
def bigS0 (x : Nat) : Nat := rotr32 x 2 ^^^ rotr32 x 13 ^^^ rotr32 x 22

/-- SHA-256 Σ1. -/
def bigS1 (x : Nat) : Nat := rotr32 x 6 ^^^ rotr32 x 11 ^^^ rotr32 x 25

/-- SHA-256 σ0. -/
def smallS0 (x : Nat) : Nat := rotr32 x 7 ^^^ rotr32 x 18 ^^^ (x >>> 3)

/-- SHA-256 σ1. -/
def smallS1 (x : Nat) : Nat := rotr32 x 17 ^^^ rotr32 x 19 ^^^ (x >>> 10)

/-- SHA-256 Ch: choose. -/
def chB (x y z : Nat) : Nat := (x &&& y) ^^^ ((x ^^^ (M32 - 1)) &&& z)

/-- SHA-256 Maj: majority. -/
def majB (x y z : Nat) : Nat := (x &&& y) ^^^ (x &&& z) ^^^ (y &&& z)

/-- The 64 SHA-256 round constants of FIPS 180-4, in decimal. -/
def K256 : List Nat :=
  [1116352408, 1899447441, 3049323471, 3921009573, 961987163, 1508970993,
   2453635748, 2870763221, 3624381080, 310598401, 607225278, 1426881987,
   1925078388, 2162078206, 2614888103, 3248222580, 3835390401, 4022224774,
   264347078, 604807628, 770255983, 1249150122, 1555081692, 1996064986,
   2554220882, 2821834349, 2952996808, 3210313671, 3336571891, 3584528711,
   113926993, 338241895, 666307205, 773529912, 1294757372, 1396182291,
   1695183700, 1986661051, 2177026350, 2456956037, 2730485921, 2820302411,
   3259730800, 3345764771, 3516065817, 3600352804, 4094571909, 275423344,
   430227734, 506948616, 659060556, 883997877, 958139571, 1322822218,
   1537002063, 1747873779, 1955562222, 2024104815, 2227730452, 2361852424,
   2428436474, 2756734187, 3204031479, 3329325298]

/-- A natural number as `k` big-endian bytes. -/
def natToBytesBE : Nat → Nat → List Nat
  | 0, _ => []
  | k + 1, n => natToBytesBE k (n / 256) ++ [n % 256]

/-- Big-endian bytes to 32-bit words, four bytes per word. -/
def toWordsBE : List Nat → List Nat
  | b0 :: b1 :: b2 :: b3 :: rest =>
    (b0 * 16777216 + b1 * 65536 + b2 * 256 + b3) :: toWordsBE rest
  | _ => []

/-- Extend the 16 message words of a block to the 64-entry schedule. -/
def extendSchedule (w : List Nat) : List Nat :=
  (List.range 48).foldl
    (fun ws _ =>
      let n := ws.length
      ws ++ [(smallS1 (ws.getD (n - 2) 0) + ws.getD (n - 7) 0 +
              smallS0 (ws.getD (n - 15) 0) + ws.getD (n - 16) 0) % M32])
    w

/-- The eight 32-bit working variables of the SHA-256 compression. -/
structure Sha256State where
  a : Nat
  b : Nat
  c : Nat
  d : Nat
  e : Nat
  f : Nat
  g : Nat
  h : Nat
deriving Repr

/-- The SHA-256 initial hash value of FIPS 180-4, in decimal. -/
def sha256Init : Sha256State :=
  { a := 1779033703, b := 3144134277, c := 1013904242, d := 2773480762,
    e := 1359893119, f := 2600822924, g := 528734635, h := 1541459225 }

/-- One SHA-256 compression round at constant `kw.1` and schedule word `kw.2`. -/
def sha256Round (s : Sha256State) (kw : Nat × Nat) : Sha256State :=
  let t1 := (s.h + bigS1 s.e + chB s.e s.f s.g + kw.1 + kw.2) % M32
  let t2 := (bigS0 s.a + majB s.a s.b s.c) % M32
  { a := (t1 + t2) % M32, b := s.a, c := s.b, d := s.c,
    e := (s.d + t1) % M32, f := s.e, g := s.f, h := s.g }

/-- Compress one 64-byte block into the running hash value. -/
def compressBlock (H : Sha256State) (block : List Nat) : Sha256State :=
  let w := extendSchedule (toWordsBE block)
  let s := (K256.zip w).foldl sha256Round H
  { a := (H.a + s.a) % M32, b := (H.b + s.b) % M32, c := (H.c + s.c) % M32,
    d := (H.d + s.d) % M32, e := (H.e + s.e) % M32, f := (H.f + s.f) % M32,
    g := (H.g + s.g) % M32, h := (H.h + s.h) % M32 }

/-- FIPS 180-4 padding: a `0x80` byte, zeros to 56 mod 64, and the bit
length as eight big-endian bytes. -/
def padMessage (msg : List Nat) : List Nat :=
  msg ++ 128 :: List.replicate ((119 - msg.length % 64) % 64) 0 ++
    natToBytesBE 8 (msg.length * 8)

/-- Cut a byte list into 64-byte blocks, recursing on a fuel bound (each
step consumes at least one byte, so the list length is fuel enough). -/
def toBlocksFuel : Nat → List Nat → List (List Nat)
  | 0, _ => []
  | _, [] => []
  | fuel + 1, c :: rest =>
    (c :: rest).take 64 :: toBlocksFuel fuel ((c :: rest).drop 64)

/-- Cut a byte list (whose length is a multiple of 64) into 64-byte blocks. -/
def toBlocks (l : List Nat) : List (List Nat) :=
  toBlocksFuel l.length l

/-- SHA-256 of a byte list: the 32 digest bytes, as Go `sha256.Sum256`. -/
def sha256Bytes (msg : List Nat) : List Nat :=
  let Hf := (toBlocks (padMessage msg)).foldl compressBlock sha256Init
  (([Hf.a, Hf.b, Hf.c, Hf.d, Hf.e, Hf.f, Hf.g, Hf.h]).map (natToBytesBE 4)).flatten

/-- A hex digit as its lowercase character. -/
def hexDigit (n : Nat) : Char :=
  if n < 10 then Char.ofNat (48 + n) else Char.ofNat (87 + n)

/-- Go `hex.EncodeToString`: two lowercase hex digits per byte. -/
def hexEncode (bs : List Nat) : String :=
  String.mk ((bs.map fun b => [hexDigit (b / 16), hexDigit (b % 16)]).flatten)

/-- The UTF-8 encoding of one character, as Go produces for `[]byte(string)`. -/
def utf8Char (c : Char) : List Nat :=
  let n := c.toNat
  if n < 128 then [n]
  else if n < 2048 then [192 + n / 64, 128 + n % 64]
  else if n < 65536 then [224 + n / 4096, 128 + (n / 64) % 64, 128 + n % 64]
  else [240 + n / 262144, 128 + (n / 4096) % 64, 128 + (n / 64) % 64, 128 + n % 64]

/-- Go `[]byte(s)`: the UTF-8 bytes of a string. -/
def utf8Encode (s : String) : List Nat :=
  (s.data.map utf8Char).flatten

/-- `hashPassword` (dnyu.go): `hex.EncodeToString(sha256.Sum256([]byte(password)))`. -/
def hashPassword (password : String) : String :=
  hexEncode (sha256Bytes (utf8Encode password))

/-! ## The update client (dnyu.go) -/

/-- `apiEndpoint` (dnyu.go). -/
def apiEndpoint : String := "https://api.dynu.com"

/-- Go struct `Client` (dnyu.go).  The `logger` and `httpClient` fields are
injected capabilities (external collaborators) with no bearing on request
construction; they are not part of this embedding. -/
structure Client where
  ipv6 : Bool
  ipv4 : Bool
  endpoint : String
  username : String
  password : String
  location : String
  hostnames : List String
deriving Repr, DecidableEq

/-- The configuration surface of Go type `Option func(*Client)` (dnyu.go):
one constructor per option the package defines.  `log` and `httpClient`
set the capability fields that this embedding omits. -/
inductive ClientOption where
  | log
  | ipv6 (enabled : Bool)
  | ipv4 (enabled : Bool)
  | hostnames (hs : List String)
  | location (l : String)
  | endpoint (e : String)
  | httpClient
deriving Repr, DecidableEq

/-- The effect of each option on the client (dnyu.go lines 45-97):
`Hostnames` also clears `location`; `Location` also clears `hostnames`. -/
def applyOption (c : Client) : ClientOption → Client
  | .log => c
  | .ipv6 b => { c with ipv6 := b }
  | .ipv4 b => { c with ipv4 := b }
  | .hostnames hs => { c with hostnames := hs, location := "" }
  | .location l => { c with location := l, hostnames := [] }
  | .endpoint e => { c with endpoint := e }
  | .httpClient => c

/-- `New` (dnyu.go): build the default client (username, password, default
endpoint, IPv4 on, IPv6 off, Go zero values for location and hostnames)
and apply the options in order.  Construction is total: no option and no
field assignment can fail. -/
def New (username password : String) (options : List ClientOption) : Client :=
  options.foldl applyOption
    { username := username, password := password, endpoint := apiEndpoint,
      ipv6 := false, ipv4 := true, location := "", hostnames := [] }

/-- The `url.Values` map `q` of `DoUpdateIP` (dnyu.go): `q.Set` is called
with exactly the six literal keys below, so the map is embedded as one
optional slot per key (`none` = key absent). -/
structure Values where
  password : Option String := none
  hostname : Option String := none
  username : Option String := none
  location : Option String := none
  myip : Option String := none
  myipv6 : Option String := none
deriving Repr, DecidableEq

/-- A caller-supplied address (Go `net.IP`): either an address whose
`To4()` is non-nil, or an IPv6 address; `text` is its Go `String()`
rendering (dotted-decimal for v4). -/
inductive IP where
  | v4 (text : String)
  | v6 (text : String)
deriving Repr, DecidableEq

/-- The address loop of `DoUpdateIP` (dnyu.go lines 141-151): for each
address, overwrite `myip` when it is v4 and v4-reporting is on, and
`myipv6` when it is v6 and v6-reporting is on. -/
def setAddress (c : Client) (q : Values) : IP → Values
  | .v4 t => if c.ipv4 then { q with myip := some t } else q
  | .v6 t => if c.ipv6 then { q with myipv6 := some t } else q

/-- The query of `DoUpdateIP` (dnyu.go lines 129-140) before the address
loop: hashed password; hostname (comma-joined with `strings.Join`) when
hostnames are configured, else username plus optional location;
`myip`/`myipv6` defaulted to the literal `"no"`. -/
def preQuery (c : Client) : Values :=
  let q : Values := {}
  let q := { q with password := some (hashPassword c.password) }
  let q :=
    if c.hostnames.length > 0 then
      { q with hostname := some (String.intercalate "," c.hostnames) }
    else
      let q2 := { q with username := some c.username }
      if c.location ≠ "" then { q2 with location := some c.location } else q2
  { q with myip := some "no", myipv6 := some "no" }

/-- The full query construction of `DoUpdateIP` (dnyu.go lines 129-151):
the pre-loop query, then the address loop over the caller's list. -/
def buildQuery (c : Client) (ips : List IP) : Values :=
  ips.foldl (setAddress c) (preQuery c)

/-- `DoUpdateIP` (dnyu.go) up to the transport hand-off: parse the
configured endpoint with `url.Parse` — modelled by the caller-supplied
predicate `parseURL`, since `url.Parse` is Go standard library, external
to this repository — returning its error on failure, and otherwise build
the query.  The transport call and the response path (`ReadResponse`,
`Response.ToError`) are the injected capability and the codec above. -/
def DoUpdateIP (parseURL : String → Bool) (c : Client) (ips : List IP) :
    Except String Values :=
  if parseURL c.endpoint then Except.ok (buildQuery c ips)
  else Except.error ("url parse error: " ++ c.endpoint)

/-! ## Specification-level descriptions used by the claims -/

/-- The records of a `Response` whose code is outside the set
`\x7b"good", "nochg"\x7d`, in original index order, each carrying its
index, code, and detail: the entries the error model is claimed to
produce. -/
def expectedErrors (rs : Response) : List Error :=
  ((rs.Codes.zip rs.Detail).enum).filterMap fun p =>
    if p.2.1 = "good" ∨ p.2.1 = "nochg" then none
    else some { Request := p.1, Code := p.2.1, Detail := p.2.2 }

/-- The field split as the specification words it: at most two fields,
separated by the first whitespace run; field 2, when the record has one,
is everything after that run. -/
def splitFieldsRun (record : List Char) : List Char × Option (List Char) :=
  let f1 := record.takeWhile fun c => !(isSpaceGo c)
  let rest := record.dropWhile fun c => !(isSpaceGo c)
  (f1, if rest.isEmpty then none else some (rest.dropWhile isSpaceGo))

/-- The codec as claim C2 states it: records split on `"\n\r"`, fields
split on the first whitespace run, field 1 lower-cased and trimmed as the
code, field 2 as the detail, as-is. -/
def readResponseSpecC2 (body : String) : Response :=
  let recs := (splitNR body.data).map fun record =>
    (String.mk (trimSpaceGo (toLowerGo (splitFieldsRun record).1)),
     String.mk (((splitFieldsRun record).2).getD []))
  { Codes := recs.map Prod.fst, Detail := recs.map Prod.snd }

/-- The codec with the amended field split: at most two fields, separated
by the first space character (U+0020) only; field 2 is everything after
that single space, as-is. -/
def readResponseAmendedC2 (body : String) : Response :=
  let recs := (splitNR body.data).map fun record =>
    let f1 := record.takeWhile fun c => !(c == ' ')
    let rest := record.dropWhile fun c => !(c == ' ')
    (String.mk (trimSpaceGo (toLowerGo f1)),
     String.mk (match rest with | [] => [] | _ :: r => r))
  { Codes := recs.map Prod.fst, Detail := recs.map Prod.snd }

/-- The text of the last v4 address of the list, when there is one. -/
def lastV4 (ips : List IP) : Option String :=
  (ips.filterMap fun ip => match ip with
    | .v4 t => some t
    | .v6 _ => none).getLast?

/-- The text of the last v6 address of the list, when there is one. -/
def lastV6 (ips : List IP) : Option String :=
  (ips.filterMap fun ip => match ip with
    | .v6 t => some t
    | .v4 _ => none).getLast?

/-! ## Supporting lemmas -/

/-- `IsError` holds exactly off the set `\x7b"good", "nochg"\x7d`. -/
theorem isError_iff (rc : ResponseCode) :
    rc.IsError = true ↔ ¬(rc = "good" ∨ rc = "nochg") := by
  simp [ResponseCode.IsError, RespGood, RespNoChange]

/-- Characterisation of the `ToError` loop: when the codes fit inside the
suffix of the detail list starting at the running index, the loop never
panics, and it returns exactly the erroring records, indexed from `i`. -/
theorem toErrorAux_eq (detail : List String) (codes : List ResponseCode) :
    ∀ (dtl : List String) (i : Nat), detail.drop i = dtl →
      codes.length ≤ dtl.length →
      toErrorAux detail codes i =
        some (((codes.zip dtl).enumFrom i).filterMap fun p =>
          if p.2.1 = "good" ∨ p.2.1 = "nochg" then none
          else some { Request := p.1, Code := p.2.1, Detail := p.2.2 }) := by
  induction codes with
  | nil => intro dtl i _ _; simp [toErrorAux]
  | cons r rest ih =>
    intro dtl i hdrop hlen
    cases dtl with
    | nil => simp at hlen
    | cons d dtl2 =>
      have hget : detail[i]? = some d := by
        have h0 := List.getElem?_drop detail i 0
        rw [hdrop] at h0
        simpa using h0.symm
      have hdrop2 : detail.drop (i + 1) = dtl2 := by
        have h1 : List.drop 1 (List.drop i detail) = List.drop 1 (d :: dtl2) := by
          rw [hdrop]
        simpa [List.drop_drop] using h1
      have hlen2 : rest.length ≤ dtl2.length := by
        simpa using Nat.le_of_succ_le_succ hlen
      have ihr := ih dtl2 (i + 1) hdrop2 hlen2
      by_cases hr : r.IsError = true
      · have hcond : ¬(r = "good" ∨ r = "nochg") := (isError_iff r).mp hr
        simp [toErrorAux, hr, hget, ihr, List.zip_cons_cons, List.enumFrom_cons,
          List.filterMap_cons, hcond]
      · have hcond : r = "good" ∨ r = "nochg" := by
          by_contra hc
          exact hr ((isError_iff r).mpr hc)
        simp [toErrorAux, hr, ihr, List.zip_cons_cons, List.enumFrom_cons,
          List.filterMap_cons, hcond]

/-- `ToError` on a response whose codes fit the detail list: no panic, and
the result is `nil` or the expected error entries. -/
theorem toError_eq (rs : Response) (h : rs.Codes.length ≤ rs.Detail.length) :
    rs.ToError =
      some (if expectedErrors rs = [] then none else some (expectedErrors rs)) := by
  have haux := toErrorAux_eq rs.Detail rs.Codes rs.Detail 0 (by simp) (by simpa using h)
  have haux2 : toErrorAux rs.Detail rs.Codes 0 = some (expectedErrors rs) := haux
  unfold Response.ToError
  rw [haux2]
  cases hE : expectedErrors rs with
  | nil => simp
  | cons e es => simp

/-- The two record lists of a parsed response have the same length. -/
theorem readResponse_length (body : String) :
    (ReadResponse body).Codes.length = (ReadResponse body).Detail.length := by
  simp [ReadResponse]

/-- A code is in `Codes` exactly when some indexed record of the response
carries it, provided the two lists of the response align. -/
theorem mem_codes_iff (codes : List ResponseCode) (detail : List String)
    (h : codes.length = detail.length) (c : ResponseCode) :
    c ∈ codes ↔ ∃ p ∈ (codes.zip detail).enum, p.2.1 = c := by
  constructor
  · intro hc
    have hmap : codes = ((codes.zip detail).map Prod.fst) :=
      (List.map_fst_zip codes detail (le_of_eq h)).symm
    rw [hmap] at hc
    obtain ⟨q, hq, hqc⟩ := List.mem_map.mp hc
    have hsnd : q ∈ (List.enum (codes.zip detail)).map Prod.snd := by
      rw [List.enum_map_snd]; exact hq
    obtain ⟨p, hp, hpq⟩ := List.mem_map.mp hsnd
    exact ⟨p, hp, by rw [hpq, hqc]⟩
  · rintro ⟨p, hp, hpc⟩
    have hsnd : p.2 ∈ (List.enum (codes.zip detail)).map Prod.snd :=
      List.mem_map.mpr ⟨p, hp, rfl⟩
    rw [List.enum_map_snd] at hsnd
    have hfst : p.2.1 ∈ (codes.zip detail).map Prod.fst :=
      List.mem_map.mpr ⟨p.2, hsnd, rfl⟩
    rw [List.map_fst_zip codes detail (le_of_eq h)] at hfst
    rwa [hpc] at hfst

/-- `SplitN(code, " ", 2)` in closed form: the prefix before the first
space, and the remainder after that single space when one occurs. -/
theorem splitN2Space_eq (s : List Char) :
    splitN2Space s =
      (s.takeWhile fun c => !(c == ' '),
       match s.dropWhile (fun c => !(c == ' ')) with
       | [] => none
       | _ :: r => some r) := by
  induction s with
  | nil => rfl
  | cons c rest ih =>
    by_cases hc : c = ' '
    · subst hc
      simp [splitN2Space, List.takeWhile_cons, List.dropWhile_cons]
    · simp [splitN2Space, hc, List.takeWhile_cons, List.dropWhile_cons, ih]

/-! ## The claims -/

/-- C1: for every parsed response, `ToError` returns Go `nil` (the inner
`none`) exactly when every record's code is `"good"` or `"nochg"`;
otherwise it returns the composite error whose entries are exactly the
records with codes outside that set, in original index order, each entry
carrying that record's index, code, and detail (`expectedErrors`). -/
theorem toError_composite_c1 (body : String) :
    (ReadResponse body).ToError =
      some (if expectedErrors (ReadResponse body) = [] then none
            else some (expectedErrors (ReadResponse body))) ∧
    (expectedErrors (ReadResponse body) = [] ↔
      ∀ c ∈ (ReadResponse body).Codes, c = "good" ∨ c = "nochg") := by
  refine ⟨toError_eq _ (le_of_eq (readResponse_length body)), ?_⟩
  rw [expectedErrors, List.filterMap_eq_nil_iff]
  constructor
  · intro hall c hc
    obtain ⟨p, hp, hpc⟩ :=
      (mem_codes_iff _ _ (readResponse_length body) c).mp hc
    have hnone := hall p hp
    have hcond : p.2.1 = "good" ∨ p.2.1 = "nochg" := by
      by_contra hnc
      simp [hnc] at hnone
    rwa [hpc] at hcond
  · intro hall p hp
    have hcond : p.2.1 = "good" ∨ p.2.1 = "nochg" :=
      hall p.2.1 ((mem_codes_iff _ _ (readResponse_length body) p.2.1).mpr
        ⟨p, hp, rfl⟩)
    exact if_pos hcond

/-- C2 counterexample: on the record `"a\tb"` the codec does not split at
the tab (a whitespace run): the whole record, tab included, becomes the
code and the detail is empty, while the claim's whitespace-run split
would give code `"a"` and detail `"b"`. -/
theorem splitRun_counterexample_c2 :
    ReadResponse "a\tb" ≠ readResponseSpecC2 "a\tb" ∧
    ReadResponse "a\tb" = { Codes := ["a\tb"], Detail := [""] } ∧
    readResponseSpecC2 "a\tb" = { Codes := ["a"], Detail := ["b"] } := by
  decide

/-- C2 amended: the codec splits the text into records on the literal
two-character separator `"\n\r"`, and splits each record into at most two
fields at the first space character (U+0020) only — not at a general
whitespace run; field 1, lower-cased and trimmed, becomes the code, and
field 2 (the remainder after that single space, if present) becomes the
detail, as-is and not trimmed. -/
theorem codec_splits_on_first_space_c2 (body : String) :
    ReadResponse body = readResponseAmendedC2 body := by
  have hrec : ∀ record : List Char,
      parseRecord record =
        (String.mk (trimSpaceGo (toLowerGo
            (record.takeWhile fun c => !(c == ' ')))),
         String.mk (match record.dropWhile (fun c => !(c == ' ')) with
           | [] => []
           | _ :: r => r)) := by
    intro record
    rw [parseRecord, splitN2Space_eq]
    cases record.dropWhile (fun c => !(c == ' ')) <;> rfl
  unfold ReadResponse readResponseAmendedC2
  rw [funext hrec]

/-- C3: `Temporary` is true exactly when the error's code is one of
`"servererror"`, `"911"`, `"dnserr"`, and false for every other code. -/
theorem temporary_iff_retryable_code_c3 (e : Error) :
    e.Temporary = true ↔
      (e.Code = "servererror" ∨ e.Code = "911" ∨ e.Code = "dnserr") := by
  simp [Error.Temporary, RespDNS, Resp911, RespServerError]
  tauto

/-- C8: the empty input parses to a response with exactly one record,
whose code and detail are both the empty string. -/
theorem empty_input_single_empty_record_c8 :
    ReadResponse "" = { Codes := [""], Detail := [""] } := by
  decide

/-- C10: every parsed response has `Codes` and `Detail` of equal length,
and on any response whose lists align this way `ToError` never reaches
the out-of-range branch (the panic case, modelled by the outer `none`). -/
theorem codec_toError_alignment_c10 (body : String) (rs : Response)
    (h : rs.Codes.length = rs.Detail.length) :
    (ReadResponse body).Codes.length = (ReadResponse body).Detail.length ∧
    rs.ToError ≠ none := by
  refine ⟨readResponse_length body, ?_⟩
  rw [toError_eq rs (le_of_eq h)]
  simp

/-- Witness for C10 at a concrete parsed body and a concrete aligned
response with an erroring code. -/
theorem codec_toError_alignment_c10_witness :
    (ReadResponse "good").Codes.length = (ReadResponse "good").Detail.length ∧
    ({ Codes := ["badauth"], Detail := [""] } : Response).ToError ≠ none :=
  codec_toError_alignment_c10 "good"
    { Codes := ["badauth"], Detail := [""] } (by decide)

/-! ## Client-side helper lemmas -/

/-- The address loop only ever writes the two address slots. -/
theorem setAddress_fixed (c : Client) (q : Values) (ip : IP) :
    (setAddress c q ip).password = q.password ∧
    (setAddress c q ip).hostname = q.hostname ∧
    (setAddress c q ip).username = q.username ∧
    (setAddress c q ip).location = q.location := by
  cases ip <;> dsimp [setAddress] <;> split <;> exact ⟨rfl, rfl, rfl, rfl⟩

/-- Folding the address loop leaves every non-address slot unchanged. -/
theorem foldl_setAddress_fixed (c : Client) (ips : List IP) : ∀ q : Values,
    (ips.foldl (setAddress c) q).password = q.password ∧
    (ips.foldl (setAddress c) q).hostname = q.hostname ∧
    (ips.foldl (setAddress c) q).username = q.username ∧
    (ips.foldl (setAddress c) q).location = q.location := by
  induction ips with
  | nil => intro q; exact ⟨rfl, rfl, rfl, rfl⟩
  | cons ip rest ih =>
    intro q
    obtain ⟨h1, h2, h3, h4⟩ := ih (setAddress c q ip)
    obtain ⟨g1, g2, g3, g4⟩ := setAddress_fixed c q ip
    rw [List.foldl_cons]
    exact ⟨h1.trans g1, h2.trans g2, h3.trans g3, h4.trans g4⟩

/-- The `myip` slot after the address loop: the last v4 address when
v4-reporting is on and at least one v4 address occurs, else untouched. -/
theorem foldl_setAddress_myip (c : Client) (ips : List IP) : ∀ q : Values,
    (ips.foldl (setAddress c) q).myip =
      match (if c.ipv4 then lastV4 ips else none) with
      | some t => some t
      | none => q.myip := by
  induction ips using List.reverseRecOn with
  | nil => intro q; cases hc : c.ipv4 <;> simp [lastV4]
  | append_singleton rest ip ih =>
    intro q
    rw [List.foldl_append]
    cases ip with
    | v4 t =>
      have hl : lastV4 (rest ++ [.v4 t]) = some t := by
        simp [lastV4, List.filterMap_append, List.getLast?_concat]
      cases hc : c.ipv4 with
      | true => simp [setAddress, hc, hl]
      | false => simp [setAddress, hc, hl, ih q]
    | v6 t =>
      have hl : lastV4 (rest ++ [.v6 t]) = lastV4 rest := by
        simp [lastV4, List.filterMap_append]
      have hms : ∀ q2 : Values, (setAddress c q2 (.v6 t)).myip = q2.myip := by
        intro q2; dsimp [setAddress]; split <;> rfl
      simp only [List.foldl_cons, List.foldl_nil, hms, hl, ih q]

/-- The `myipv6` slot after the address loop: the last v6 address when
v6-reporting is on and at least one v6 address occurs, else untouched. -/
theorem foldl_setAddress_myipv6 (c : Client) (ips : List IP) : ∀ q : Values,
    (ips.foldl (setAddress c) q).myipv6 =
      match (if c.ipv6 then lastV6 ips else none) with
      | some t => some t
      | none => q.myipv6 := by
  induction ips using List.reverseRecOn with
  | nil => intro q; cases hc : c.ipv6 <;> simp [lastV6]
  | append_singleton rest ip ih =>
    intro q
    rw [List.foldl_append]
    cases ip with
    | v6 t =>
      have hl : lastV6 (rest ++ [.v6 t]) = some t := by
        simp [lastV6, List.filterMap_append, List.getLast?_concat]
      cases hc : c.ipv6 with
      | true => simp [setAddress, hc, hl]
      | false => simp [setAddress, hc, hl, ih q]
    | v4 t =>
      have hl : lastV6 (rest ++ [.v4 t]) = lastV6 rest := by
        simp [lastV6, List.filterMap_append]
      have hms : ∀ q2 : Values, (setAddress c q2 (.v4 t)).myipv6 = q2.myipv6 := by
        intro q2; dsimp [setAddress]; split <;> rfl
      simp only [List.foldl_cons, List.foldl_nil, hms, hl, ih q]

/-- The password slot before the address loop. -/
theorem preQuery_password (c : Client) :
    (preQuery c).password = some (hashPassword c.password) := by
  unfold preQuery
  dsimp only
  split
  · rfl
  · split <;> rfl

/-- The hostname slot before the address loop. -/
theorem preQuery_hostname (c : Client) :
    (preQuery c).hostname =
      (if c.hostnames ≠ [] then some (String.intercalate "," c.hostnames)
       else none) := by
  unfold preQuery
  dsimp only
  by_cases h : c.hostnames = []
  · have hlen : ¬(c.hostnames.length > 0) := by simp [h]
    rw [if_neg hlen, if_neg (show ¬(c.hostnames ≠ []) by simp [h])]
    split <;> rfl
  · have hlen : c.hostnames.length > 0 := List.length_pos.mpr h
    rw [if_pos hlen, if_pos h]

/-- The username slot before the address loop. -/
theorem preQuery_username (c : Client) :
    (preQuery c).username =
      (if c.hostnames ≠ [] then none else some c.username) := by
  unfold preQuery
  dsimp only
  by_cases h : c.hostnames = []
  · have hlen : ¬(c.hostnames.length > 0) := by simp [h]
    rw [if_neg hlen, if_neg (show ¬(c.hostnames ≠ []) by simp [h])]
    split <;> rfl
  · have hlen : c.hostnames.length > 0 := List.length_pos.mpr h
    rw [if_pos hlen, if_pos h]

/-- The location slot before the address loop. -/
theorem preQuery_location (c : Client) :
    (preQuery c).location =
      (if c.hostnames = [] ∧ c.location ≠ "" then some c.location
       else none) := by
  unfold preQuery
  dsimp only
  by_cases h : c.hostnames = []
  · have hlen : ¬(c.hostnames.length > 0) := by simp [h]
    rw [if_neg hlen]
    by_cases hl : c.location = ""
    · rw [if_neg (show ¬(c.location ≠ "") by simp [hl]),
        if_neg (show ¬(c.hostnames = [] ∧ c.location ≠ "") by simp [hl])]
    · rw [if_pos hl, if_pos ⟨h, hl⟩]
  · have hlen : c.hostnames.length > 0 := List.length_pos.mpr h
    rw [if_pos hlen,
      if_neg (show ¬(c.hostnames = [] ∧ c.location ≠ "") by simp [h])]

/-- Both address slots are defaulted to `"no"` before the loop. -/
theorem preQuery_addresses (c : Client) :
    (preQuery c).myip = some "no" ∧ (preQuery c).myipv6 = some "no" :=
  ⟨rfl, rfl⟩

/-- `natToBytesBE` produces exactly the requested byte count. -/
theorem natToBytesBE_length : ∀ (k n : Nat), (natToBytesBE k n).length = k := by
  intro k
  induction k with
  | zero => intro n; rfl
  | succ k ih => intro n; simp [natToBytesBE, ih]

/-- A SHA-256 digest is 32 bytes. -/
theorem sha256Bytes_length (msg : List Nat) : (sha256Bytes msg).length = 32 := by
  simp [sha256Bytes, List.length_flatten, natToBytesBE_length]

/-- Hex encoding yields two characters per byte. -/
theorem hexEncode_length (bs : List Nat) :
    (hexEncode bs).length = 2 * bs.length := by
  have hl : ∀ l : List Nat,
      ((l.map fun b => [hexDigit (b / 16), hexDigit (b % 16)]).flatten).length
        = 2 * l.length := by
    intro l
    induction l with
    | nil => rfl
    | cons b rest ih => simp [ih]; omega
  show ((bs.map fun b => [hexDigit (b / 16), hexDigit (b % 16)]).flatten).length
      = 2 * bs.length
  exact hl bs

/-- A hashed password is always 64 characters of hex. -/
theorem hashPassword_length (p : String) : (hashPassword p).length = 64 := by
  rw [hashPassword, hexEncode_length, sha256Bytes_length]

/-- The SHA-256 embedding reproduces the FIPS 180-4 test vector for the
message `"abc"`, kernel-checked: the digest pipeline (UTF-8 bytes,
padding, schedule, 64 rounds, hex) is the real function, not a stub. -/
theorem hashPassword_fips_vector :
    hashPassword "abc" =
      "ba7816bf8f01cfea414140de5dae2223b00361a396177a9cb410ff61f20015ad" := by
  decide

/-- The construction-time exclusivity invariant: starting from a client
satisfying it, every option preserves it. -/
theorem foldl_applyOption_exclusive :
    ∀ (opts : List ClientOption) (c : Client),
      (c.hostnames = [] ∨ c.location = "") →
      ((opts.foldl applyOption c).hostnames = [] ∨
       (opts.foldl applyOption c).location = "") := by
  intro opts
  induction opts with
  | nil => intro c h; exact h
  | cons o rest ih =>
    intro c h
    rw [List.foldl_cons]
    apply ih
    cases o <;> first
      | exact h
      | (right; rfl)
      | (left; rfl)

/-- Every client built by `New` has at most one active targeting mode. -/
theorem new_exclusive (u p : String) (opts : List ClientOption) :
    (New u p opts).hostnames = [] ∨ (New u p opts).location = "" :=
  foldl_applyOption_exclusive opts _ (Or.inl rfl)

/-- The three targeting slots of the built query, shared by the targeting
claims: comma-joined hostname exactly when hostnames are configured,
username exactly otherwise, location exactly when configured without
hostnames. -/
theorem buildQuery_targeting (c : Client) (ips : List IP) :
    (buildQuery c ips).hostname =
      (if c.hostnames ≠ [] then some (String.intercalate "," c.hostnames)
       else none) ∧
    (buildQuery c ips).username =
      (if c.hostnames ≠ [] then none else some c.username) ∧
    (buildQuery c ips).location =
      (if c.hostnames = [] ∧ c.location ≠ "" then some c.location
       else none) := by
  obtain ⟨-, h2, h3, h4⟩ := foldl_setAddress_fixed c ips (preQuery c)
  rw [buildQuery]
  rw [h2, h3, h4, preQuery_hostname, preQuery_username, preQuery_location]
  exact ⟨rfl, rfl, rfl⟩

/-! ## The client claims -/

/-- C4: the built request's `myip` and `myipv6` fields default to the
literal `"no"`; each v4 address with v4-reporting enabled overwrites
`myip` (last v4 wins), each v6 address with v6-reporting enabled
overwrites `myipv6` (last v6 wins), and addresses of a disabled family
are ignored without error. -/
theorem address_fields_default_last_wins_c4 (c : Client) (ips : List IP) :
    (buildQuery c ips).myip =
      some (if c.ipv4 then (lastV4 ips).getD "no" else "no") ∧
    (buildQuery c ips).myipv6 =
      some (if c.ipv6 then (lastV6 ips).getD "no" else "no") := by
  constructor
  · rw [buildQuery, foldl_setAddress_myip]
    cases hc : c.ipv4 <;> cases hv : lastV4 ips <;>
      simp [hc, hv, (preQuery_addresses c).1]
  · rw [buildQuery, foldl_setAddress_myipv6]
    cases hc : c.ipv6 <;> cases hv : lastV6 ips <;>
      simp [hc, hv, (preQuery_addresses c).2]

/-- C5: with one or more hostnames configured the request carries the
single comma-joined `hostname` field and omits `username` (and
`location`); otherwise it carries `username` and, exactly when a location
is configured, `location`. -/
theorem targeting_fields_c5 (c : Client) (ips : List IP) :
    (buildQuery c ips).hostname =
      (if c.hostnames ≠ [] then some (String.intercalate "," c.hostnames)
       else none) ∧
    (buildQuery c ips).username =
      (if c.hostnames ≠ [] then none else some c.username) ∧
    (buildQuery c ips).location =
      (if c.hostnames = [] ∧ c.location ≠ "" then some c.location
       else none) :=
  buildQuery_targeting c ips

/-- C6: the built request's `password` field is the lowercase hex encoding
of the SHA-256 digest of the configured password (a 64-character hex
string, never the clear-text password), and the encoding is a function of
the password alone, hence deterministic. -/
theorem password_hashed_c6 (c : Client) (ips : List IP) :
    (buildQuery c ips).password = some (hashPassword c.password) ∧
    hashPassword c.password = hexEncode (sha256Bytes (utf8Encode c.password)) ∧
    (hashPassword c.password).length = 64 := by
  refine ⟨?_, rfl, hashPassword_length c.password⟩
  rw [buildQuery, (foldl_setAddress_fixed c ips (preQuery c)).1,
    preQuery_password]

/-- C7: the `Hostnames` option clears the location and the `Location`
option clears the hostnames; after any sequence of options applied by
`New` at most one of the two targeting modes is active, and the built
request never carries `hostname` together with `username`/`location`. -/
theorem targeting_exclusive_c7 (u p : String) (opts : List ClientOption)
    (hs : List String) (l : String) (ips : List IP) :
    (applyOption (New u p opts) (.hostnames hs)).location = "" ∧
    (applyOption (New u p opts) (.location l)).hostnames = [] ∧
    ((New u p opts).hostnames = [] ∨ (New u p opts).location = "") ∧
    ((buildQuery (New u p opts) ips).hostname = none ∨
     ((buildQuery (New u p opts) ips).username = none ∧
      (buildQuery (New u p opts) ips).location = none)) := by
  refine ⟨rfl, rfl, new_exclusive u p opts, ?_⟩
  obtain ⟨hh, hu, hl⟩ := buildQuery_targeting (New u p opts) ips
  by_cases h : (New u p opts).hostnames = []
  · left; rw [hh]; simp [h]
  · right
    constructor
    · rw [hu]; simp [h]
    · rw [hl]; simp [h]

/-- C9 counterexample: with a malformed endpoint, construction succeeds
and returns an ordinary client storing the bad endpoint unchanged; the
URL-parse failure is surfaced by the update operation instead. -/
theorem bad_endpoint_update_error_c9_counterexample :
    New "user" "secret" [ClientOption.endpoint "://bad"] =
      { ipv6 := false, ipv4 := true, endpoint := "://bad", username := "user",
        password := "secret", location := "", hostnames := [] } ∧
    DoUpdateIP (fun _ => false)
        (New "user" "secret" [ClientOption.endpoint "://bad"]) [] =
      Except.error ("url parse error: " ++ "://bad") :=
  ⟨rfl, rfl⟩

/-- C9 amended: a malformed endpoint URL (one the URL parser rejects) is
surfaced as an error of the update operation — `DoUpdateIP` returns the
parse error before any request is built or sent — while client
construction by `New` always succeeds. -/
theorem bad_endpoint_update_error_c9 (parseURL : String → Bool)
    (u p : String) (opts : List ClientOption) (ips : List IP)
    (h : parseURL ((New u p opts).endpoint) = false) :
    DoUpdateIP parseURL (New u p opts) ips =
      Except.error ("url parse error: " ++ (New u p opts).endpoint) := by
  rw [DoUpdateIP, if_neg]
  simp [h]

/-- Witness for C9 at a rejecting parser and a concrete client. -/
theorem bad_endpoint_update_error_c9_witness :
    (fun _ => false : String → Bool)
        ((New "u2" "p2" [ClientOption.endpoint "://x"]).endpoint) = false ∧
    DoUpdateIP (fun _ => false) (New "u2" "p2" [ClientOption.endpoint "://x"]) [] =
      Except.error ("url parse error: " ++
        (New "u2" "p2" [ClientOption.endpoint "://x"]).endpoint) :=
  ⟨rfl, bad_endpoint_update_error_c9 (fun _ => false) "u2" "p2"
    [ClientOption.endpoint "://x"] [] rfl⟩

end Dynu
